import Mathlib

/-!
Verification of the natural-language specification of the `rquest`
impersonation-aware HTTP client engine.  The repository's visible harness is
test and example code; the core components (redirect engine, connection pool,
DNS layer, header emission, TLS-info extractor, HTTP/2 multiplexer) are
modelled here from the specification's component design (spec.md §3–§8) and
the claims are settled against those models.
-/

namespace Rquest

/-! ## Basic protocol data -/

/-- HTTP request methods. -/
inductive Method
  | GET | POST | PUT | DELETE | HEAD | OPTIONS | PATCH
deriving DecidableEq, Repr

/-- URL scheme. -/
inductive Scheme
  | http | https
deriving DecidableEq, Repr

/-- A target URL: scheme, host, port and path. -/
structure Url where
  scheme : Scheme
  host : String
  port : Nat
  path : String
deriving DecidableEq, Repr

/-- A header is a (lower-cased name, value) pair; header maps are ordered lists. -/
abbrev Header := String × String

/-- Request bodies: a sized byte body or a streaming body. -/
inductive Body
  | sized (bytes : List Nat)
  | streaming
deriving DecidableEq, Repr

/-- An in-flight request: method, target URL, headers and optional body
(spec §3, InFlightRequest). -/
structure Request where
  method : Method
  url : Url
  headers : List Header
  body : Option Body
deriving DecidableEq, Repr

/-! ## Redirect engine (spec §4.6) -/

/-- Header behavior option of the redirect policy (spec §4.6). -/
inductive HeaderBehavior
  | preserve
  | stripOnCrossOrigin
deriving DecidableEq, Repr

/-- Redirect policy: maximum hop count and header behavior (spec §4.6). -/
structure RedirectPolicy where
  limit : Nat
  headerBehavior : HeaderBehavior
deriving DecidableEq, Repr

/-- Statuses whose redirects downgrade POST/PUT/DELETE to GET (spec §4.6). -/
def downgradeStatus (s : Nat) : Bool :=
  s == 301 || s == 302 || s == 303

/-- Statuses whose redirects preserve method and body (spec §4.6). -/
def preserveStatus (s : Nat) : Bool :=
  s == 307 || s == 308

/-- A status the redirect engine acts on at all. -/
def isRedirectStatus (s : Nat) : Bool :=
  downgradeStatus s || preserveStatus s

/-- Methods subject to the GET downgrade on 301/302/303 (spec §4.6). -/
def downgradeMethod (m : Method) : Bool :=
  m == .POST || m == .PUT || m == .DELETE

/-- Sensitive header names stripped on cross-origin redirects (spec §4.6). -/
def sensitiveName (n : String) : Bool :=
  n == "authorization" || n == "cookie"

/-- The redirect target is cross-origin when host or scheme differs (spec §4.6). -/
def crossOrigin (a b : Url) : Bool :=
  a.host != b.host || a.scheme != b.scheme

/-- Modelled from the spec: header handling of the redirect engine (missing
from src/, spec §4.6).  Sensitive headers (Authorization, Cookie) are stripped
whenever the target is cross-origin, regardless of policy; the policy's
`stripOnCrossOrigin` option additionally drops the remaining headers on
cross-origin hops. -/
def redirectHeaders (policy : RedirectPolicy) (prev : Request) (target : Url) :
    List Header :=
  if crossOrigin prev.url target then
    match policy.headerBehavior with
    | .stripOnCrossOrigin => []
    | .preserve => prev.headers.filter (fun h => !sensitiveName h.1)
  else prev.headers

/-- Modelled from the spec: the follow-up request the redirect engine builds
(missing from src/, spec §4.6).  301/302/303 downgrade POST/PUT/DELETE to GET
and drop the body; otherwise method and body are carried over unchanged. -/
def nextRequest (policy : RedirectPolicy) (prev : Request) (s : Nat)
    (target : Url) : Request :=
  if downgradeStatus s && downgradeMethod prev.method then
    { method := .GET, url := target,
      headers := redirectHeaders policy prev target, body := none }
  else
    { method := prev.method, url := target,
      headers := redirectHeaders policy prev target, body := prev.body }

/-- Outcome of one redirect-engine decision (spec §4.6). -/
inductive RedirectAction
  | follow (r : Request)
  | stop
  | fail
deriving DecidableEq, Repr

/-- Modelled from the spec: the redirect engine's decision function (missing
from src/, spec §4.6) — a pure function of (previous request, response status,
Location header, policy, hop count).  It follows a redirect only while the hop
count is below the policy limit, and yields `fail` (too many hops) once the
limit is reached. -/
def redirectEngine (prev : Request) (status : Nat) (location : Option Url)
    (policy : RedirectPolicy) (hops : Nat) : RedirectAction :=
  if isRedirectStatus status then
    match location with
    | some target =>
        if hops < policy.limit then
          .follow (nextRequest policy prev status target)
        else .fail
    | none => .stop
  else .stop

theorem redirectEngine_follow_lt {prev : Request} {s : Nat} {loc : Option Url}
    {policy : RedirectPolicy} {hops : Nat} {r : Request}
    (h : redirectEngine prev s loc policy hops = .follow r) :
    hops < policy.limit := by
  unfold redirectEngine at h
  split at h
  · cases loc with
    | none => simp at h
    | some target =>
        simp only at h
        split at h
        · assumption
        · simp at h
  · simp at h

/-! ## Request dispatcher's redirect loop (spec §4.7 data flow, §7 errors) -/

/-- Engine-level error taxonomy (spec §7), restricted to categories the
redirect loop can produce or forward. -/
inductive ReqError
  | tooManyHops
  | connectFailed
  | protocolError
deriving DecidableEq, Repr

/-- A terse response view for the redirect loop: status and Location. -/
structure RedirectResponse where
  status : Nat
  location : Option Url
deriving DecidableEq, Repr

/-- Modelled from the spec: the dispatcher's redirect loop (missing from
src/, spec §2 data flow and §4.6).  `serve` abstracts one network round trip;
the loop consults the redirect engine after each response and either returns
the terminal response together with the hop count at which it was produced,
or fails with the too-many-hops error. -/
def followRedirects (serve : Request → RedirectResponse)
    (policy : RedirectPolicy) (req : Request) (hops : Nat) :
    Except ReqError (RedirectResponse × Nat) :=
  let resp := serve req
  match hE : redirectEngine req resp.status resp.location policy hops with
  | .stop => .ok (resp, hops)
  | .fail => .error .tooManyHops
  | .follow next => followRedirects serve policy next (hops + 1)
termination_by policy.limit - hops
decreasing_by
  have := redirectEngine_follow_lt hE
  omega

/-- Modelled from the spec: one logical request with redirect following starts
at hop count zero (spec §3, InFlightRequest's redirect count). -/
def dispatch (serve : Request → RedirectResponse) (policy : RedirectPolicy)
    (req : Request) : Except ReqError (RedirectResponse × Nat) :=
  followRedirects serve policy req 0

/-- The termination contract of the redirect loop: a terminal response within
the hop limit, or the too-many-hops error. -/
def redirectOutcomeOk (policy : RedirectPolicy)
    (res : Except ReqError (RedirectResponse × Nat)) : Prop :=
  match res with
  | .ok (_, n) => n ≤ policy.limit
  | .error e => e = .tooManyHops

instance (policy : RedirectPolicy) (res : Except ReqError (RedirectResponse × Nat)) :
    Decidable (redirectOutcomeOk policy res) := by
  unfold redirectOutcomeOk
  rcases res with e | ⟨r, n⟩ <;> infer_instance

/-! ## Header emission (spec §8: content-framing and user-agent) -/

/-- Does the ordered header list contain a header of the given name? -/
def hasHeader (hs : List Header) (n : String) : Bool :=
  hs.any (fun h => h.1 == n)

/-- First value of the named header, if present. -/
def getHeader (hs : List Header) (n : String) : Option String :=
  (hs.find? (fun h => h.1 == n)).map (·.2)

/-- Replace any existing header of the given name with the new value. -/
def setHeader (n v : String) (hs : List Header) : List Header :=
  (n, v) :: hs.filter (fun h => h.1 != n)

/-- A client's request-emission configuration: optional user-agent override
and the profile's default header set (spec §3, ClientConfig and
FingerprintProfile). -/
structure EmitConfig where
  userAgent : Option String
  defaultHeaders : List Header
deriving DecidableEq, Repr

/-- Modelled from the spec: body-framing headers emitted by the engine
(missing from src/, spec §8) — a sized body yields `content-length`, a
streaming body yields chunked `transfer-encoding`, and no body yields no
framing header at all. -/
def framingHeaders : Option Body → List Header
  | none => []
  | some (.sized b) => [("content-length", toString b.length)]
  | some .streaming => [("transfer-encoding", "chunked")]

/-- Modelled from the spec: assembly of an outgoing request's headers (missing
from src/, spec §3 and §8) — caller headers first, then profile defaults that
the caller did not override, then the user-agent override applied, then the
body-framing headers. -/
def buildHeaders (cfg : EmitConfig) (userHeaders : List Header)
    (body : Option Body) : List Header :=
  let withDefaults :=
    userHeaders ++ cfg.defaultHeaders.filter (fun d => !hasHeader userHeaders d.1)
  let withUa :=
    match cfg.userAgent with
    | some ua => setHeader "user-agent" ua withDefaults
    | none => withDefaults
  withUa ++ framingHeaders body

/-! ## DNS resolution layer (spec §4.4, §6) -/

/-- A socket address: textual IP plus port. -/
structure SocketAddr where
  ip : String
  port : Nat
deriving DecidableEq, Repr

/-- The DNS override table: hostname → ordered fixed address list (spec §6). -/
structure DnsConfig where
  overrides : List (String × List SocketAddr)
deriving DecidableEq, Repr

/-- Exact static override for a host, if configured (spec §4.4 step (a)). -/
def lookupOverride (cfg : DnsConfig) (host : String) :
    Option (List SocketAddr) :=
  (cfg.overrides.find? (fun e => e.1 == host)).map (·.2)

/-- Modelled from the spec: the resolution function (missing from src/, spec
§4.4) — an exact static override is used verbatim and short-circuits network
resolution; otherwise the system resolver `sysResolver` is queried. -/
def resolve (cfg : DnsConfig) (sysResolver : String → List SocketAddr)
    (host : String) : List SocketAddr :=
  match lookupOverride cfg host with
  | some addrs => addrs
  | none => sysResolver host

/-- Modelled from the spec: the connection outcome of the happy-eyeballs race
over the candidate list (missing from src/, spec §4.4) — the race succeeds
exactly when some candidate is reachable, and the winning address is a
reachable candidate (the head start favors earlier candidates, so the first
reachable one is the winner here). -/
def happyEyeballs (reachable : SocketAddr → Bool)
    (candidates : List SocketAddr) : Option SocketAddr :=
  candidates.find? reachable

/-! ## Connection pool (spec §3, §4.5) -/

/-- Negotiated protocol version. -/
inductive HttpVersion
  | http11 | http2
deriving DecidableEq, Repr

/-- PooledConnection lifecycle states (spec §4.5). -/
inductive ConnState
  | establishing | idle | inUse | closing | closed
deriving DecidableEq, Repr

/-- PoolKey: (scheme, host, port, profile identity, proxy identity) (spec §3). -/
structure PoolKey where
  scheme : Scheme
  host : String
  port : Nat
  profileId : Nat
  proxyId : Option Nat
deriving DecidableEq, Repr

/-- A pooled connection (spec §3): identity, key, negotiated version,
lifecycle state, last-activity time, open-stream count and concurrency
ceiling.  Times are abstract Nat instants. -/
structure PooledConnection where
  id : Nat
  key : PoolKey
  version : HttpVersion
  state : ConnState
  lastActivity : Nat
  streams : Nat
  ceiling : Nat
deriving DecidableEq, Repr

/-- The pool: live connections, a fresh-id counter and the configured idle
timeout (spec §3, ClientConfig's pool idle timeout). -/
structure Pool where
  conns : List PooledConnection
  nextId : Nat
  idleTimeout : Nat
deriving DecidableEq, Repr

/-- Pool well-formedness: connection ids are below the fresh-id counter and
pairwise distinct. -/
def poolWf (pool : Pool) : Prop :=
  (∀ c ∈ pool.conns, c.id < pool.nextId) ∧ (pool.conns.map (·.id)).Nodup

instance (pool : Pool) : Decidable (poolWf pool) := by
  unfold poolWf
  infer_instance

/-- An idle connection has expired when its idle time exceeds the timeout. -/
def connExpired (now timeout : Nat) (c : PooledConnection) : Bool :=
  c.state == .idle && timeout < now - c.lastActivity

/-- Close a connection (transition to `Closing`) when it has expired. -/
def closeIfExpired (now timeout : Nat) (c : PooledConnection) :
    PooledConnection :=
  if connExpired now timeout c then { c with state := .closing } else c

/-- Modelled from the spec: the background idle-eviction sweep (missing from
src/, spec §4.5) — closes every `Idle` connection whose last-activity time
exceeds the configured idle timeout. -/
def sweep (now : Nat) (pool : Pool) : Pool :=
  { pool with conns := pool.conns.map (closeIfExpired now pool.idleTimeout) }

/-- Does a connection's negotiated version satisfy an explicit version pin? -/
def versionMatches (pin : Option HttpVersion) (v : HttpVersion) : Bool :=
  match pin with
  | none => true
  | some p => p == v

/-- Modelled from the spec: reuse test of `acquire` (missing from src/, spec
§4.5) — an idle, unexpired connection of the same key with spare stream
capacity whose negotiated version satisfies the caller's pin. -/
def canReuse (now timeout : Nat) (key : PoolKey) (pin : Option HttpVersion)
    (c : PooledConnection) : Bool :=
  c.key == key && c.state == .idle && c.streams < c.ceiling &&
    versionMatches pin c.version && !connExpired now timeout c

/-- Modelled from the spec: protocol negotiation for a fresh connection
(missing from src/, spec §4.5 and §6) — an explicit pin restricts the ALPN
offer to that version, and without a pin ALPN negotiates HTTP/2. -/
def negotiate (pin : Option HttpVersion) : HttpVersion :=
  pin.getD .http2

/-- Default concurrency ceiling before the peer's SETTINGS arrives
(spec §4.5 and §9): HTTP/1.1 serves one request at a time. -/
def defaultCeiling : HttpVersion → Nat
  | .http11 => 1
  | .http2 => 100

/-- Result of `acquire`: updated pool, the handed-out connection's id and
negotiated version, and whether a new connection was opened. -/
structure AcquireResult where
  pool : Pool
  connId : Nat
  version : HttpVersion
  isNew : Bool
deriving DecidableEq, Repr

/-- Modelled from the spec: `acquire(PoolKey)` (missing from src/, spec
§4.5) — return a reusable idle connection for the key if one exists,
otherwise open a fresh connection at the negotiated version. -/
def acquire (now : Nat) (pool : Pool) (key : PoolKey)
    (pin : Option HttpVersion) : AcquireResult :=
  match pool.conns.find? (canReuse now pool.idleTimeout key pin) with
  | some c =>
      ⟨{ pool with
          conns := pool.conns.map (fun x =>
            if x.id == c.id then
              { x with
                  state := ConnState.inUse
                  streams := x.streams + 1
                  lastActivity := now }
            else x) },
        c.id, c.version, false⟩
  | none =>
      let v := negotiate pin
      let fresh : PooledConnection :=
        { id := pool.nextId, key := key, version := v, state := .inUse,
          lastActivity := now, streams := 1, ceiling := defaultCeiling v }
      ⟨{ pool with conns := pool.conns ++ [fresh], nextId := pool.nextId + 1 },
        pool.nextId, v, true⟩

/-- Modelled from the spec: the protocol version of the response produced on
the acquired connection equals that connection's negotiated version (spec §6,
public surface). -/
def responseVersion (r : AcquireResult) : HttpVersion :=
  r.version

/-! ## HTTP/2 multiplexer: stream ceiling and request queue (spec §4.5) -/

/-- Multiplexer view of one HTTP/2 connection: the peer-advertised (or
default) ceiling, the per-connection request queue in arrival order, the
streams currently open, and the completed requests with their statuses. -/
structure H2Conn where
  ceiling : Nat
  queue : List Nat
  inFlight : List Nat
  done : List (Nat × Nat)
deriving DecidableEq, Repr

/-- The connection's current open-stream count. -/
def openStreams (c : H2Conn) : Nat :=
  c.inFlight.length

/-- Multiplexer events: a request arrives, a queued request is dispatched as
a stream, a stream completes (here: with status 200). -/
inductive H2Step
  | submit (r : Nat)
  | dispatchStream
  | complete
deriving DecidableEq, Repr

/-- Modelled from the spec: the per-connection multiplexer transition
function (missing from src/, spec §4.5).  Arriving requests are queued in
arrival order and never failed; a queued request is dispatched only while the
open-stream count is below the ceiling, in FIFO order; a completing stream
leaves the connection and its request succeeds with status 200. -/
def applyStep : H2Step → H2Conn → H2Conn
  | .submit r, c => { c with queue := c.queue ++ [r] }
  | .dispatchStream, c =>
      match c.queue with
      | [] => c
      | r :: rest =>
          if c.inFlight.length < c.ceiling then
            { c with queue := rest, inFlight := c.inFlight ++ [r] }
          else c
  | .complete, c =>
      match c.inFlight with
      | [] => c
      | r :: rest => { c with inFlight := rest, done := c.done ++ [(r, 200)] }

/-- Run a sequence of multiplexer events. -/
def runSteps (l : List H2Step) (c : H2Conn) : H2Conn :=
  l.foldl (fun st s => applyStep s st) c

/-- Drain the queue by alternating dispatch and completion `n` times —
the schedule a ceiling-1 connection follows. -/
def drainN : Nat → H2Conn → H2Conn
  | 0, c => c
  | n + 1, c => drainN n (applyStep .complete (applyStep .dispatchStream c))

/-! ## TLS info extractor (spec §4.7) -/

/-- TLS-info attachment: the peer certificate chain, DER-encoded, one byte
list per certificate (spec §4.7). -/
structure TlsInfo where
  peerChain : List (List Nat)
deriving DecidableEq, Repr

/-- Outcome of a successful TLS handshake as produced by the TLS engine
collaborator (spec §6): the peer's certificate chain. -/
structure HandshakeOutcome where
  peerChain : List (List Nat)
deriving DecidableEq, Repr

/-- A certificate chain from a successful handshake: non-empty, and the first
certificate starts with the ASN.1 SEQUENCE tag byte 0x30 (spec §8). -/
def validChain (chain : List (List Nat)) : Bool :=
  match chain with
  | [] => false
  | cert :: _ => cert.head? == some 0x30

/-- Modelled from the spec: the chain recorded on the PooledConnection at
handshake completion (missing from src/, spec §4.7) — recorded only when
capture is enabled for the client. -/
def captureChain (capture : Bool) (hs : HandshakeOutcome) :
    Option (List (List Nat)) :=
  if capture then some hs.peerChain else none

/-- A response produced on an HTTPS connection: status and the optional
TLS-info attachment. -/
structure HttpsResponse where
  status : Nat
  tlsInfo : Option TlsInfo
deriving DecidableEq, Repr

/-- Modelled from the spec: the dispatcher attaches the recorded chain (if
any) to every response produced on the connection (missing from src/, spec
§4.7). -/
def attachTlsInfo (captured : Option (List (List Nat))) (status : Nat) :
    HttpsResponse :=
  { status := status, tlsInfo := captured.map TlsInfo.mk }

/-- A response on a handshaken connection under a given capture setting. -/
def mkHttpsResponse (capture : Bool) (hs : HandshakeOutcome) (status : Nat) :
    HttpsResponse :=
  attachTlsInfo (captureChain capture hs) status

/-! ## Concrete example values used by witnesses -/

/-- An example origin URL. -/
def exOrigin : Url := ⟨.http, "origin.example", 80, "/start"⟩

/-- An example same-scheme, different-host redirect target. -/
def exTarget : Url := ⟨.http, "other.example", 80, "/next"⟩

/-- An example POST request carrying credentials and a body. -/
def exPrev : Request :=
  ⟨.POST, exOrigin,
    [("authorization", "Bearer t"), ("cookie", "sid=1"), ("accept", "*/*")],
    some (.sized [1, 2, 3])⟩

/-- An example redirect policy with the default-style hop limit. -/
def exPolicy : RedirectPolicy := ⟨10, .preserve⟩

/-- The follow-up request the engine builds for a 301 on `exPrev`. -/
def exNext : Request := nextRequest exPolicy exPrev 301 exTarget

/-! ## Redirect-engine facts -/

theorem nextRequest_url (policy : RedirectPolicy) (prev : Request) (s : Nat)
    (target : Url) : (nextRequest policy prev s target).url = target := by
  unfold nextRequest
  split <;> rfl

theorem nextRequest_headers (policy : RedirectPolicy) (prev : Request)
    (s : Nat) (target : Url) :
    (nextRequest policy prev s target).headers =
      redirectHeaders policy prev target := by
  unfold nextRequest
  split <;> rfl

theorem redirectEngine_follow_eq {prev : Request} {s : Nat} {loc : Option Url}
    {policy : RedirectPolicy} {hops : Nat} {r : Request}
    (h : redirectEngine prev s loc policy hops = .follow r) :
    ∃ target, loc = some target ∧ r = nextRequest policy prev s target := by
  unfold redirectEngine at h
  split at h
  · cases loc with
    | none => simp at h
    | some target =>
        simp only at h
        split at h
        · cases h
          exact ⟨target, rfl, rfl⟩
        · simp at h
  · simp at h

/-- Claim C2: a 301/302/303 redirect of a POST/PUT/DELETE request yields a
follow-up request with method GET and no body, while a 307/308 redirect
yields a follow-up request with the original method and body unchanged. -/
theorem claim_C2_redirect_method_rules (prev : Request) (s : Nat)
    (target : Url) (policy : RedirectPolicy) (hops : Nat)
    (hHop : hops < policy.limit) :
    ((s = 301 ∨ s = 302 ∨ s = 303) →
      (prev.method = .POST ∨ prev.method = .PUT ∨ prev.method = .DELETE) →
      redirectEngine prev s (some target) policy hops =
        .follow { method := .GET, url := target,
                  headers := redirectHeaders policy prev target,
                  body := none }) ∧
    ((s = 307 ∨ s = 308) →
      redirectEngine prev s (some target) policy hops =
        .follow { method := prev.method, url := target,
                  headers := redirectHeaders policy prev target,
                  body := prev.body }) := by
  constructor
  · intro hs hm
    have hds : downgradeStatus s = true := by
      rcases hs with h | h | h <;> subst h <;> rfl
    have hdm : downgradeMethod prev.method = true := by
      rcases hm with h | h | h <;> rw [h] <;> rfl
    have hrs : isRedirectStatus s = true := by
      unfold isRedirectStatus
      rw [hds]
      rfl
    simp [redirectEngine, hrs, hHop, nextRequest, hds, hdm]
  · intro hs
    have hds : downgradeStatus s = false := by
      rcases hs with h | h <;> subst h <;> rfl
    have hrs : isRedirectStatus s = true := by
      rcases hs with h | h <;> subst h <;> rfl
    simp [redirectEngine, hrs, hHop, nextRequest, hds]

/-- Witness for C2 at the concrete 301/307 redirects of a POST with a body. -/
theorem claim_C2_witness :
    0 < exPolicy.limit ∧
    redirectEngine exPrev 301 (some exTarget) exPolicy 0 =
      .follow { method := .GET, url := exTarget,
                headers := redirectHeaders exPolicy exPrev exTarget,
                body := none } ∧
    redirectEngine exPrev 307 (some exTarget) exPolicy 0 =
      .follow { method := exPrev.method, url := exTarget,
                headers := redirectHeaders exPolicy exPrev exTarget,
                body := exPrev.body } :=
  ⟨by decide,
    (claim_C2_redirect_method_rules exPrev 301 exTarget exPolicy 0
      (by decide)).1 (Or.inl rfl) (Or.inl rfl),
    (claim_C2_redirect_method_rules exPrev 307 exTarget exPolicy 0
      (by decide)).2 (Or.inl rfl)⟩

theorem followRedirects_outcome (serve : Request → RedirectResponse)
    (policy : RedirectPolicy) :
    ∀ (k : Nat) (req : Request) (hops : Nat), policy.limit - hops = k →
      hops ≤ policy.limit →
      redirectOutcomeOk policy (followRedirects serve policy req hops) := by
  intro k
  induction k using Nat.strong_induction_on with
  | _ k ih =>
      intro req hops hk hle
      rw [followRedirects]
      split
      · exact hle
      · rfl
      · rename_i next hE
        have hlt := redirectEngine_follow_lt hE
        exact ih (policy.limit - (hops + 1)) (by omega) next (hops + 1) rfl
          (by omega)

/-- Claim C3: the dispatcher's redirect loop always terminates — it either
produces a terminal response within the configured maximum hop count or fails
with the too-many-hops redirect error, even on cyclic redirect chains. -/
theorem claim_C3_redirect_termination (serve : Request → RedirectResponse)
    (policy : RedirectPolicy) (req : Request) :
    redirectOutcomeOk policy (dispatch serve policy req) :=
  followRedirects_outcome serve policy (policy.limit - 0) req 0 rfl
    (Nat.zero_le _)

theorem hasHeader_filter_false {l : List Header} {p : Header → Bool}
    {n : String} (h : hasHeader l n = false) :
    hasHeader (l.filter p) n = false := by
  simp only [hasHeader, List.any_eq_false] at h ⊢
  intro x hx
  exact h x (List.mem_of_mem_filter hx)

/-- Claim C4: whenever the engine follows a redirect whose target is
cross-origin (different host or scheme), the Authorization and Cookie headers
are absent from the follow-up request, whatever the policy. -/
theorem claim_C4_strip_sensitive_cross_origin (prev : Request) (s : Nat)
    (loc : Option Url) (policy : RedirectPolicy) (hops : Nat) (r : Request)
    (hF : redirectEngine prev s loc policy hops = .follow r)
    (hCross : crossOrigin prev.url r.url = true) :
    hasHeader r.headers "authorization" = false ∧
    hasHeader r.headers "cookie" = false := by
  obtain ⟨target, -, hr⟩ := redirectEngine_follow_eq hF
  subst hr
  rw [nextRequest_url] at hCross
  rw [nextRequest_headers]
  unfold redirectHeaders
  rw [hCross]
  cases policy.headerBehavior with
  | stripOnCrossOrigin => exact ⟨rfl, rfl⟩
  | preserve =>
      constructor <;>
      · simp only [hasHeader, List.any_eq_false]
        intro x hx
        have hsens := (List.mem_filter.mp hx).2
        simp only [sensitiveName, Bool.not_eq_true', Bool.or_eq_false_iff] at hsens
        simp [hsens.1, hsens.2]

/-- Witness for C4 at a concrete cross-origin 301 redirect carrying
credentials. -/
theorem claim_C4_witness :
    redirectEngine exPrev 301 (some exTarget) exPolicy 0 = .follow exNext ∧
    crossOrigin exPrev.url exNext.url = true ∧
    hasHeader exNext.headers "authorization" = false ∧
    hasHeader exNext.headers "cookie" = false := by
  refine ⟨by decide, by decide, ?_⟩
  exact claim_C4_strip_sensitive_cross_origin exPrev 301 (some exTarget)
    exPolicy 0 exNext (by decide) (by decide)

/-! ## Header-emission facts -/

/-- An example emission config: user-agent override plus browser-profile
default headers. -/
def exEmitConfig : EmitConfig :=
  ⟨some "rquest-test-agent", [("accept", "*/*"), ("accept-encoding", "gzip")]⟩

/-- Example caller-supplied headers. -/
def exUserHeaders : List Header := [("x-custom", "1")]

/-- Claim C5: a request issued without an explicit body carries none of the
Content-Length, Content-Type or Transfer-Encoding headers — the engine emits
no framing header at all, so the header is present only if the caller or the
profile's default set supplied it explicitly. -/
theorem claim_C5_no_framing_without_body (cfg : EmitConfig)
    (userHeaders : List Header) (n : String)
    (hn : n = "content-length" ∨ n = "content-type" ∨
      n = "transfer-encoding")
    (hu : hasHeader userHeaders n = false)
    (hd : hasHeader cfg.defaultHeaders n = false) :
    hasHeader (buildHeaders cfg userHeaders none) n = false := by
  have hua : ("user-agent" == n) = false := by
    rcases hn with h | h | h <;> subst h <;> decide
  have hbase :
      hasHeader (userHeaders ++
        cfg.defaultHeaders.filter (fun d => !hasHeader userHeaders d.1)) n
        = false := by
    simp only [hasHeader, List.any_append, Bool.or_eq_false_iff]
    exact ⟨hu, hasHeader_filter_false hd⟩
  unfold buildHeaders
  cases hcfg : cfg.userAgent with
  | none => simpa [framingHeaders] using hbase
  | some ua =>
      simp only [framingHeaders, List.append_nil, setHeader]
      simp only [hasHeader, List.any_cons, Bool.or_eq_false_iff]
      exact ⟨hua, hasHeader_filter_false hbase⟩

/-- Witness for C5: the concrete client of the no-body test emits no
content-length header. -/
theorem claim_C5_witness :
    hasHeader exUserHeaders "content-length" = false ∧
    hasHeader exEmitConfig.defaultHeaders "content-length" = false ∧
    hasHeader (buildHeaders exEmitConfig exUserHeaders none)
      "content-length" = false :=
  ⟨by decide, by decide,
    claim_C5_no_framing_without_body exEmitConfig exUserHeaders
      "content-length" (Or.inl rfl) (by decide) (by decide)⟩

/-- Claim C6: a client with a user-agent override sends exactly that value as
the user-agent header of every outgoing request. -/
theorem claim_C6_user_agent_override (cfg : EmitConfig)
    (userHeaders : List Header) (body : Option Body) (ua : String)
    (h : cfg.userAgent = some ua) :
    getHeader (buildHeaders cfg userHeaders body) "user-agent" = some ua := by
  unfold buildHeaders
  rw [h]
  simp [getHeader, setHeader]

/-- Witness for C6 at the concrete override of the user-agent test. -/
theorem claim_C6_witness :
    exEmitConfig.userAgent = some "rquest-test-agent" ∧
    getHeader (buildHeaders exEmitConfig exUserHeaders none) "user-agent" =
      some "rquest-test-agent" :=
  ⟨by decide,
    claim_C6_user_agent_override exEmitConfig exUserHeaders none
      "rquest-test-agent" (by decide)⟩

/-! ## DNS facts -/

/-- Example DNS config overriding one hostname to two fixed addresses,
the first of which is unreachable. -/
def exDnsConfig : DnsConfig :=
  ⟨[("rust-lang.org", [⟨"::1", 8080⟩, ⟨"127.0.0.1", 8080⟩])]⟩

/-- The overridden address list of `exDnsConfig`. -/
def exAddrs : List SocketAddr := [⟨"::1", 8080⟩, ⟨"127.0.0.1", 8080⟩]

/-- An example system resolver that is never consulted for overridden hosts. -/
def exSysResolver : String → List SocketAddr := fun _ => []

/-- A second, different system resolver. -/
def exSysResolverB : String → List SocketAddr := fun _ => [⟨"9.9.9.9", 80⟩]

/-- Reachability of the example candidates: only the IPv4 loopback accepts. -/
def exReachable : SocketAddr → Bool := fun a => a.ip == "127.0.0.1"

/-- Claim C7: an exact static DNS override is used verbatim and in order,
independently of any network resolver; and when some overridden address is
reachable, the happy-eyeballs race over the resolved candidates succeeds via
a reachable overridden address. -/
theorem claim_C7_dns_override (cfg : DnsConfig)
    (r1 r2 : String → List SocketAddr) (host : String)
    (addrs : List SocketAddr) (reachable : SocketAddr → Bool)
    (h : lookupOverride cfg host = some addrs) :
    resolve cfg r1 host = addrs ∧
    resolve cfg r1 host = resolve cfg r2 host ∧
    ((∃ a ∈ addrs, reachable a = true) →
      ∃ a, happyEyeballs reachable (resolve cfg r1 host) = some a ∧
        reachable a = true ∧ a ∈ addrs) := by
  have hres : ∀ r : String → List SocketAddr, resolve cfg r host = addrs := by
    intro r
    unfold resolve
    rw [h]
  refine ⟨hres r1, by rw [hres r1, hres r2], ?_⟩
  intro hex
  have hsome : (addrs.find? reachable).isSome := by
    rw [List.find?_isSome]
    exact hex
  obtain ⟨a, ha⟩ := Option.isSome_iff_exists.mp hsome
  exact ⟨a, by rw [hres r1]; exact ha, List.find?_some ha,
    List.mem_of_find?_eq_some ha⟩

/-- Witness for C7 at the concrete override of the DNS tests: two fixed
addresses, the unreachable IPv6 one first. -/
theorem claim_C7_witness :
    lookupOverride exDnsConfig "rust-lang.org" = some exAddrs ∧
    resolve exDnsConfig exSysResolver "rust-lang.org" = exAddrs ∧
    resolve exDnsConfig exSysResolver "rust-lang.org" =
      resolve exDnsConfig exSysResolverB "rust-lang.org" ∧
    (∃ a, happyEyeballs exReachable
        (resolve exDnsConfig exSysResolver "rust-lang.org") = some a ∧
      exReachable a = true ∧ a ∈ exAddrs) := by
  have h := claim_C7_dns_override exDnsConfig exSysResolver exSysResolverB
    "rust-lang.org" exAddrs exReachable (by decide)
  exact ⟨by decide, h.1, h.2.1, h.2.2 (by decide)⟩

/-! ## Pool facts -/

theorem closeIfExpired_id (now timeout : Nat) (c : PooledConnection) :
    (closeIfExpired now timeout c).id = c.id := by
  unfold closeIfExpired
  split <;> rfl

theorem canReuse_idle {now timeout : Nat} {key : PoolKey}
    {pin : Option HttpVersion} {c : PooledConnection}
    (h : canReuse now timeout key pin c = true) : c.state = .idle := by
  simp only [canReuse, Bool.and_eq_true, beq_iff_eq] at h
  exact h.1.1.1.2

theorem canReuse_version {now timeout : Nat} {key : PoolKey}
    {v : HttpVersion} {c : PooledConnection}
    (h : canReuse now timeout key (some v) c = true) : c.version = v := by
  simp only [canReuse, Bool.and_eq_true] at h
  have := h.1.2
  simp only [versionMatches, beq_iff_eq] at this
  exact this.symm

theorem mem_same_id_eq {pool : Pool} (hwf : poolWf pool)
    {a b : PooledConnection} (ha : a ∈ pool.conns) (hb : b ∈ pool.conns)
    (hid : a.id = b.id) : a = b :=
  List.inj_on_of_nodup_map hwf.2 ha hb hid

/-- An example pool key. -/
def exKey : PoolKey := ⟨.http, "pool.example", 80, 0, none⟩

/-- An example idle HTTP/2 connection, last active at instant 0. -/
def exConn : PooledConnection :=
  ⟨0, exKey, .http2, .idle, 0, 0, 100⟩

/-- An example pool holding just `exConn`, with a 1-unit idle timeout. -/
def exPool : Pool := ⟨[exConn], 1, 1⟩

/-- Claim C8: a connection idle beyond the configured idle timeout is closed
by the sweep, and a later `acquire` for any key never hands out the evicted
connection — it reuses another connection or opens a new one. -/
theorem claim_C8_idle_eviction (pool : Pool) (now later : Nat)
    (key : PoolKey) (pin : Option HttpVersion) (c : PooledConnection)
    (hwf : poolWf pool) (hc : c ∈ pool.conns)
    (hexp : connExpired now pool.idleTimeout c = true) :
    (closeIfExpired now pool.idleTimeout c).state = .closing ∧
    closeIfExpired now pool.idleTimeout c ∈ (sweep now pool).conns ∧
    (acquire later (sweep now pool) key pin).connId ≠ c.id := by
  refine ⟨by simp [closeIfExpired, hexp], ?_, ?_⟩
  · exact List.mem_map_of_mem _ hc
  · cases hfind : (sweep now pool).conns.find?
        (canReuse later (sweep now pool).idleTimeout key pin) with
    | none =>
        simp only [acquire, hfind]
        have : c.id < pool.nextId := hwf.1 c hc
        simp only [sweep]
        omega
    | some c' =>
        simp only [acquire, hfind]
        intro hid
        have hmem := List.mem_of_find?_eq_some hfind
        have hpred := List.find?_some hfind
        simp only [sweep, List.mem_map] at hmem
        obtain ⟨x, hx, hxc⟩ := hmem
        have hxid : x.id = c.id := by
          rw [← hid, ← hxc, closeIfExpired_id]
        have hxc' : x = c := mem_same_id_eq hwf hx hc hxid
        subst hxc'
        have hstate : c'.state = .idle := canReuse_idle hpred
        rw [← hxc] at hstate
        simp [closeIfExpired, hexp] at hstate

/-- Witness for C8: the concrete expired idle connection is closed by the
sweep and not handed out again. -/
theorem claim_C8_witness :
    poolWf exPool ∧ exConn ∈ exPool.conns ∧
    connExpired 5 exPool.idleTimeout exConn = true ∧
    (closeIfExpired 5 exPool.idleTimeout exConn).state = .closing ∧
    closeIfExpired 5 exPool.idleTimeout exConn ∈ (sweep 5 exPool).conns ∧
    (acquire 6 (sweep 5 exPool) exKey none).connId ≠ exConn.id := by
  refine ⟨by decide, by decide, by decide, ?_⟩
  exact claim_C8_idle_eviction exPool 5 6 exKey none exConn (by decide)
    (by decide) (by decide)

/-- Claim C10: a request pinned to an explicit protocol version is answered
at exactly that version, and never reuses a pooled connection negotiated at a
different version. -/
theorem claim_C10_version_pin (now : Nat) (pool : Pool) (key : PoolKey)
    (v : HttpVersion) (c : PooledConnection)
    (hwf : poolWf pool) (hc : c ∈ pool.conns) (hv : c.version ≠ v) :
    responseVersion (acquire now pool key (some v)) = v ∧
    (acquire now pool key (some v)).connId ≠ c.id := by
  cases hfind : pool.conns.find? (canReuse now pool.idleTimeout key (some v))
      with
  | none =>
      simp only [responseVersion, acquire, hfind]
      have : c.id < pool.nextId := hwf.1 c hc
      exact ⟨rfl, by omega⟩
  | some c' =>
      have hpred := List.find?_some hfind
      have hmem := List.mem_of_find?_eq_some hfind
      have hver : c'.version = v := canReuse_version hpred
      simp only [responseVersion, acquire, hfind]
      refine ⟨hver, ?_⟩
      intro hid
      exact hv (by rw [← mem_same_id_eq hwf hc hmem hid.symm] at hver; exact hver)

/-- Witness for C10: pinning HTTP/1.1 against a pool holding an idle HTTP/2
connection opens a fresh connection at HTTP/1.1. -/
theorem claim_C10_witness :
    poolWf exPool ∧ exConn ∈ exPool.conns ∧ exConn.version ≠ .http11 ∧
    responseVersion (acquire 0 exPool exKey (some .http11)) = .http11 ∧
    (acquire 0 exPool exKey (some .http11)).connId ≠ exConn.id := by
  refine ⟨by decide, by decide, by decide, ?_⟩
  exact claim_C10_version_pin 0 exPool exKey .http11 exConn (by decide)
    (by decide) (by decide)

/-! ## HTTP/2 multiplexer facts -/

theorem applyStep_ceiling (s : H2Step) (c : H2Conn) :
    (applyStep s c).ceiling = c.ceiling := by
  obtain ⟨ceil, q, inf, d⟩ := c
  cases s with
  | submit r => rfl
  | dispatchStream =>
      cases q with
      | nil => rfl
      | cons r rest =>
          simp only [applyStep]
          split <;> rfl
  | complete =>
      cases inf with
      | nil => rfl
      | cons r rest => rfl

theorem applyStep_openStreams (s : H2Step) (c : H2Conn)
    (h : openStreams c ≤ c.ceiling) :
    openStreams (applyStep s c) ≤ c.ceiling := by
  obtain ⟨ceil, q, inf, d⟩ := c
  simp only [openStreams] at h ⊢
  cases s with
  | submit r => exact h
  | dispatchStream =>
      cases q with
      | nil => exact h
      | cons r rest =>
          simp only [applyStep]
          split
          · rename_i hlt
            simp only [List.length_append, List.length_cons,
              List.length_nil]
            omega
          · exact h
  | complete =>
      cases inf with
      | nil => exact h
      | cons r rest =>
          simp only [applyStep, List.length_cons] at h ⊢
          omega

theorem runSteps_openStreams (l : List H2Step) (c : H2Conn)
    (h : openStreams c ≤ c.ceiling) :
    openStreams (runSteps l c) ≤ c.ceiling := by
  induction l generalizing c with
  | nil => exact h
  | cons s rest ih =>
      have hstep := applyStep_openStreams s c h
      rw [← applyStep_ceiling s c]
      have := ih (applyStep s c) (by rw [applyStep_ceiling]; exact hstep)
      rw [applyStep_ceiling s c] at this ⊢
      exact this

theorem drainN_drains (ceil : Nat) (q : List Nat) (d : List (Nat × Nat))
    (hceil : 1 ≤ ceil) :
    drainN q.length ⟨ceil, q, [], d⟩ =
      ⟨ceil, [], [], d ++ q.map (fun r => (r, 200))⟩ := by
  induction q generalizing d with
  | nil => simp [drainN]
  | cons r rest ih =>
      have hdisp :
          applyStep .dispatchStream ⟨ceil, r :: rest, [], d⟩ =
            ⟨ceil, rest, [r], d⟩ := by
        unfold applyStep
        dsimp only
        split
        · rfl
        · rename_i hnot
          exact absurd hceil (by simpa using hnot)
      have hcomp :
          applyStep .complete ⟨ceil, rest, [r], d⟩ =
            ⟨ceil, rest, [], d ++ [(r, 200)]⟩ := rfl
      show drainN (rest.length + 1) ⟨ceil, r :: rest, [], d⟩ = _
      rw [drainN, hdisp, hcomp, ih (d ++ [(r, 200)])]
      simp

/-- Claim C1: the open-stream count of an HTTP/2 connection never exceeds its
concurrency ceiling under any event sequence, and with a ceiling of at least
one every queued request — e.g. 100 concurrent requests against a ceiling of
1 — is eventually dispatched FIFO and completes with status 200; no request
is failed because the ceiling is reached. -/
theorem claim_C1_stream_ceiling :
    (∀ (l : List H2Step) (c : H2Conn), openStreams c ≤ c.ceiling →
      openStreams (runSteps l c) ≤ c.ceiling) ∧
    (∀ (ceil : Nat) (q : List Nat) (d : List (Nat × Nat)), 1 ≤ ceil →
      drainN q.length ⟨ceil, q, [], d⟩ =
        ⟨ceil, [], [], d ++ q.map (fun r => (r, 200))⟩) :=
  ⟨runSteps_openStreams, fun ceil q d h => drainN_drains ceil q d h⟩

/-- Witness for C1: a ceiling-1 connection with 100 queued requests keeps its
stream count within the ceiling and completes all 100 with status 200 in
arrival order. -/
theorem claim_C1_witness :
    (openStreams ⟨1, List.range 100, [], []⟩ ≤
        (H2Conn.mk 1 (List.range 100) [] []).ceiling ∧
      openStreams (runSteps [.dispatchStream, .complete]
        ⟨1, List.range 100, [], []⟩) ≤
        (H2Conn.mk 1 (List.range 100) [] []).ceiling) ∧
    (1 ≤ 1 ∧
      drainN (List.range 100).length ⟨1, List.range 100, [], []⟩ =
        ⟨1, [], [], [] ++ (List.range 100).map (fun r => (r, 200))⟩) :=
  ⟨⟨by decide,
      claim_C1_stream_ceiling.1 [.dispatchStream, .complete]
        ⟨1, List.range 100, [], []⟩ (by decide)⟩,
    ⟨le_refl 1,
      claim_C1_stream_ceiling.2 1 (List.range 100) [] (le_refl 1)⟩⟩

/-! ## TLS-info facts -/

/-- An example handshake outcome: one DER certificate starting with the
ASN.1 SEQUENCE tag. -/
def exHandshake : HandshakeOutcome := ⟨[[0x30, 0x82, 0x01]]⟩

/-- Claim C9: with TLS-info capture enabled, a response on a successfully
handshaken connection carries an attachment holding the peer's certificate
chain — non-empty, first certificate starting with the ASN.1 SEQUENCE byte
0x30; with capture disabled, the response carries no attachment. -/
theorem claim_C9_tls_info (hs : HandshakeOutcome) (status : Nat)
    (hvalid : validChain hs.peerChain = true) :
    (mkHttpsResponse true hs status).tlsInfo = some ⟨hs.peerChain⟩ ∧
    hs.peerChain ≠ [] ∧
    hs.peerChain.head?.bind List.head? = some 0x30 ∧
    (mkHttpsResponse false hs status).tlsInfo = none := by
  refine ⟨rfl, ?_, ?_, rfl⟩ <;>
  · cases hchain : hs.peerChain with
    | nil => rw [hchain] at hvalid; simp [validChain] at hvalid
    | cons cert rest =>
        rw [hchain] at hvalid
        simp only [validChain, beq_iff_eq] at hvalid
        simp [hvalid]

/-- Witness for C9 at the concrete one-certificate handshake outcome. -/
theorem claim_C9_witness :
    validChain exHandshake.peerChain = true ∧
    (mkHttpsResponse true exHandshake 200).tlsInfo =
      some ⟨exHandshake.peerChain⟩ ∧
    exHandshake.peerChain ≠ [] ∧
    exHandshake.peerChain.head?.bind List.head? = some 0x30 ∧
    (mkHttpsResponse false exHandshake 200).tlsInfo = none :=
  ⟨by decide, claim_C9_tls_info exHandshake 200 (by decide)⟩

end Rquest
